import Mathlib

/-!
Verification of the Blogging API core logic.

Shallow embedding of the repository's reading-time estimator, blog listing
query construction, blog CRUD controllers, login controller, auth middleware
and error handler, with theorems checking the specification's claims.

Strings from the JavaScript source are modelled as `List Char`; JavaScript
values that may be absent (`undefined`) are modelled as `Option`.
-/

namespace BlogAPI

/-- Whitespace test shared by the `trim` and the `split(/\s+/)` of the
reading-time estimator (the JavaScript `\s` class, restricted to the ASCII
whitespace characters). -/
def isWsp (c : Char) : Bool :=
  c = ' ' || c = '\t' || c = '\n' || c = '\r' || c = '\x0b' || c = '\x0c'

/-- JavaScript `text.trim()`: removes leading and trailing whitespace. -/
def trimChars (s : List Char) : List Char :=
  List.rdropWhile isWsp (s.dropWhile isWsp)

/-- One-pass splitter implementing JavaScript `str.split(/\s+/)`.
`some cur` means a token `cur` (reversed) is being accumulated; `none` means
the scanner stands right after a separator run (so reaching the end of the
string in that position produces a trailing empty token, as the regexp split
does). -/
def splitWsGo : List Char → Option (List Char) → List (List Char)
  | [], none => [[]]
  | [], some cur => [cur.reverse]
  | c :: rest, none =>
    if isWsp c then splitWsGo rest none
    else splitWsGo rest (some [c])
  | c :: rest, some cur =>
    if isWsp c then cur.reverse :: splitWsGo rest none
    else splitWsGo rest (some (c :: cur))

/-- JavaScript `str.split(/\s+/)`: splits at each maximal whitespace run;
the empty string yields `[""]`, and a leading/trailing run yields a leading/
trailing empty token. -/
def splitWs (s : List Char) : List (List Char) :=
  splitWsGo s (some [])

/-- `calculateReadingTime` from `utils/calculateReadingTime.js`.
`none` models a non-string input (the `typeof text !== "string"` guard);
`some []` is the empty string, also rejected by the `!text` guard.
`Math.ceil(wordCount / 200)` on a natural `wordCount` is
`(wordCount + 199) / 200`, and `... || 1` returns `1` when the ceiling
is `0` (falsy). -/
def calculateReadingTime : Option (List Char) → Nat
  | none => 0
  | some text =>
    if text = [] then 0
    else
      let words := splitWs (trimChars text)
      let wordCount := words.length
      let readingTime := (wordCount + 199) / 200
      if readingTime = 0 then 1 else readingTime

/-- Word counter; the flag records whether the scanner is inside a word. -/
def wordCountGo : List Char → Bool → Nat
  | [], _ => 0
  | c :: rest, inWord =>
    if isWsp c then wordCountGo rest false
    else (if inWord then 0 else 1) + wordCountGo rest true

/-- The claim's word count: the number of tokens obtained by splitting the
text on runs of whitespace (equivalently, the number of maximal runs of
non-whitespace characters). -/
def wordCountSpec (s : List Char) : Nat :=
  wordCountGo s false

/-- Whitespace-run counter; the flag records whether the scanner is inside
a whitespace run. -/
def wsRunGo : List Char → Bool → Nat
  | [], _ => 0
  | c :: rest, inRun =>
    if isWsp c then (if inRun then 0 else 1) + wsRunGo rest true
    else wsRunGo rest false

/-- A body made of `n` one-letter words separated by single spaces. -/
def mkWords : Nat → List Char
  | 0 => []
  | 1 => ['w']
  | n + 2 => 'w' :: ' ' :: mkWords (n + 1)

/-- The number of tokens produced by the splitter is one more than the
number of whitespace runs still ahead (counting a run in progress as
already accounted for). -/
theorem splitWsGo_length (s : List Char) :
    ∀ st : Option (List Char),
      (splitWsGo s st).length =
        1 + wsRunGo s (match st with | none => true | some _ => false) := by
  induction s with
  | nil => intro st; cases st <;> simp [splitWsGo, wsRunGo]
  | cons c rest ih =>
    intro st
    cases st with
    | none =>
      by_cases h : isWsp c
      · simp [splitWsGo, wsRunGo, h, ih]
      · simp [splitWsGo, wsRunGo, h, ih]
    | some cur =>
      by_cases h : isWsp c
      · simp [splitWsGo, wsRunGo, h, ih]
        omega
      · simp [splitWsGo, wsRunGo, h, ih]

/-- An all-whitespace string contains no words, from either scanner state. -/
theorem wordCountGo_all_wsp (w : List Char) (hw : ∀ c ∈ w, isWsp c) :
    ∀ b : Bool, wordCountGo w b = 0 := by
  induction w with
  | nil => intro b; rfl
  | cons c rest ih =>
    intro b
    have hc : isWsp c := hw c (List.mem_cons_self c rest)
    simp only [wordCountGo, if_pos hc]
    exact ih (fun d hd => hw d (List.mem_cons_of_mem c hd)) false

/-- A whitespace-only suffix contributes no words. -/
theorem wordCountGo_append_wsp (w : List Char) (hw : ∀ c ∈ w, isWsp c)
    (u : List Char) : ∀ b : Bool, wordCountGo (u ++ w) b = wordCountGo u b := by
  induction u with
  | nil =>
    intro b
    rw [List.nil_append, wordCountGo_all_wsp w hw b]
    rfl
  | cons c u' ih =>
    intro b
    by_cases h : isWsp c
    · simp only [List.cons_append, wordCountGo, if_pos h]
      exact ih false
    · simp only [List.cons_append, wordCountGo, if_neg h, List.append_eq,
        ih true]

/-- Dropping leading whitespace does not change the word count. -/
theorem wordCountGo_dropWhile (s : List Char) :
    wordCountGo (s.dropWhile isWsp) false = wordCountGo s false := by
  induction s with
  | nil => rfl
  | cons c rest ih =>
    by_cases h : isWsp c
    · rw [List.dropWhile_cons_of_pos h, ih]
      simp [wordCountGo, h]
    · rw [List.dropWhile_cons_of_neg h]

/-- `true` iff the string does not end in a whitespace character. -/
def noTrailWs : List Char → Bool
  | [] => true
  | c :: rest => if rest.isEmpty then !(isWsp c) else noTrailWs rest

theorem wordCountGo_cons (c : Char) (l : List Char) (b : Bool) :
    wordCountGo (c :: l) b =
      if isWsp c then wordCountGo l false
      else (if b then 0 else 1) + wordCountGo l true := rfl

theorem wsRunGo_cons (c : Char) (l : List Char) (b : Bool) :
    wsRunGo (c :: l) b =
      if isWsp c then (if b then 0 else 1) + wsRunGo l true
      else wsRunGo l false := rfl

/-- On a string with no trailing whitespace the words and the whitespace
runs alternate: seen from inside a word, one word remains per remaining run;
seen from a boundary, one extra word remains. -/
theorem wordCountGo_eq_wsRunGo (t : List Char) (ht : noTrailWs t) :
    wordCountGo t true = wsRunGo t false ∧
      wordCountGo t false = (if t.isEmpty then 0 else 1 + wsRunGo t true) := by
  induction t with
  | nil => exact ⟨rfl, rfl⟩
  | cons c rest ih =>
    cases rest with
    | nil =>
      have hc : ¬ isWsp c := by
        simp only [noTrailWs, List.isEmpty_nil, if_pos rfl] at ht
        simpa using ht
      simp [wordCountGo, wsRunGo, hc]
    | cons d rest' =>
      have hrest : noTrailWs (d :: rest') := by
        simpa [noTrailWs] using ht
      obtain ⟨ih1, ih2⟩ := ih hrest
      simp only [List.isEmpty_cons, Bool.false_eq_true, if_false] at ih2
      constructor
      · rw [wordCountGo_cons, wsRunGo_cons]
        by_cases h : isWsp c <;> simp [h, ih1, ih2]
      · rw [wordCountGo_cons, List.isEmpty_cons, wsRunGo_cons]
        by_cases h : isWsp c <;> simp [h, ih1, ih2]

/-- The head of a `dropWhile` result fails the predicate. -/
theorem dropWhile_head_false (p : Char → Bool) (l : List Char) (d : Char)
    (t : List Char) (h : l.dropWhile p = d :: t) : p d = false := by
  have hh := List.head?_dropWhile_not p l
  rw [h] at hh
  simpa using hh

/-- `noTrailWs` holds of any list whose last element is not whitespace. -/
theorem noTrailWs_of_getLast (t : List Char)
    (h : ∀ hnil : t ≠ [], ¬ isWsp (t.getLast hnil)) : noTrailWs t := by
  induction t with
  | nil => rfl
  | cons c rest ih =>
    cases rest with
    | nil =>
      have := h (by simp)
      simp only [List.getLast_singleton] at this
      simp [noTrailWs, this]
    | cons d rest' =>
      have hr : ∀ hnil : (d :: rest') ≠ [], ¬ isWsp ((d :: rest').getLast hnil) := by
        intro hnil
        have := h (by simp)
        rwa [List.getLast_cons hnil] at this
      simpa [noTrailWs] using ih hr

theorem rdropWhile_append_rtakeWhile (p : Char → Bool) (l : List Char) :
    List.rdropWhile p l ++ List.rtakeWhile p l = l := by
  rw [List.rdropWhile, List.rtakeWhile, ← List.reverse_append,
    List.takeWhile_append_dropWhile, List.reverse_reverse]

/-- The token count computed by the estimator equals the claim-side word
count, floored at one (the floor shows up exactly on whitespace-only or
empty input, where `split` yields the single empty token). -/
theorem splitWs_trim_length (s : List Char) :
    (splitWs (trimChars s)).length = max 1 (wordCountSpec s) := by
  have hdecomp : trimChars s ++ List.rtakeWhile isWsp (s.dropWhile isWsp) =
      s.dropWhile isWsp :=
    rdropWhile_append_rtakeWhile isWsp (s.dropWhile isWsp)
  have hallw : ∀ c ∈ List.rtakeWhile isWsp (s.dropWhile isWsp), isWsp c :=
    fun c hc => List.mem_rtakeWhile_imp hc
  have hwcs : wordCountSpec s = wordCountGo (trimChars s) false := by
    rw [wordCountSpec, ← wordCountGo_dropWhile s, ← hdecomp,
      wordCountGo_append_wsp _ hallw]
  have hnt : noTrailWs (trimChars s) :=
    noTrailWs_of_getLast _ (fun hnil =>
      List.rdropWhile_last_not isWsp (s.dropWhile isWsp) hnil)
  rw [splitWs, splitWsGo_length]
  rcases heq : trimChars s with _ | ⟨x, xs⟩
  · rw [heq] at hwcs
    rw [hwcs]
    rfl
  · rw [heq] at hwcs hnt
    obtain ⟨h1, h2⟩ := wordCountGo_eq_wsRunGo (x :: xs) hnt
    have hx : ¬ isWsp x := by
      rw [heq] at hdecomp
      have hcons : s.dropWhile isWsp =
          x :: (xs ++ List.rtakeWhile isWsp (s.dropWhile isWsp)) := by
        rw [← List.cons_append]
        exact hdecomp.symm
      have := dropWhile_head_false isWsp s x _ hcons
      simp [this]
    have hrun : wsRunGo (x :: xs) false = wsRunGo (x :: xs) true := by
      simp [wsRunGo, hx]
    simp only [List.isEmpty_cons, Bool.false_eq_true, if_false] at h2
    rw [hwcs, h2, hrun]
    omega

theorem calculateReadingTime_some (s : List Char) (hne : s ≠ []) :
    calculateReadingTime (some s) =
      if ((splitWs (trimChars s)).length + 199) / 200 = 0 then 1
      else ((splitWs (trimChars s)).length + 199) / 200 := by
  simp only [calculateReadingTime, if_neg hne]

/-- On non-empty text, the estimator computes `max 1 ⌈wordCount / 200⌉`. -/
theorem readingTime_formula (s : List Char) (hne : s ≠ []) :
    calculateReadingTime (some s) = max 1 ((wordCountSpec s + 199) / 200) := by
  rw [calculateReadingTime_some s hne, splitWs_trim_length]
  rcases Nat.eq_zero_or_pos (wordCountSpec s) with h0 | hpos
  · rw [h0]; decide
  · have hmax : max 1 (wordCountSpec s) = wordCountSpec s :=
      Nat.max_eq_right hpos
    have hge : 1 ≤ (wordCountSpec s + 199) / 200 := by
      have h1 : (1 + 199) / 200 ≤ (wordCountSpec s + 199) / 200 :=
        Nat.div_le_div_right (by omega)
      simpa using h1
    rw [hmax, if_neg (by omega), Nat.max_eq_right hge]

set_option maxRecDepth 40000 in
/-- Claim C1: for every non-empty string the reading-time estimator returns
`max 1 ⌈wordCount(text) / 200⌉`, counting words as the tokens obtained by
splitting on runs of whitespace; non-string or empty input returns `0`; a
single-word body yields 1, 200 words yield 1, 201 words yield 2, and 400
words yield 2. -/
theorem C1_reading_time :
    (∀ s : List Char, s ≠ [] →
        calculateReadingTime (some s) =
          max 1 ((wordCountSpec s + 199) / 200)) ∧
      calculateReadingTime none = 0 ∧
      calculateReadingTime (some []) = 0 ∧
      calculateReadingTime (some (mkWords 1)) = 1 ∧
      calculateReadingTime (some (mkWords 200)) = 1 ∧
      calculateReadingTime (some (mkWords 201)) = 2 ∧
      calculateReadingTime (some (mkWords 400)) = 2 := by
  refine ⟨readingTime_formula, rfl, by decide, ?_, ?_, ?_, ?_⟩ <;> decide

theorem C1_reading_time_witness :
    calculateReadingTime (some ['h', 'i']) =
      max 1 ((wordCountSpec ['h', 'i'] + 199) / 200) :=
  C1_reading_time.1 ['h', 'i'] (by decide)

/-! ## Blog data model and the public listing (models/Blog.js, blogController) -/

/-- Lifecycle state of a blog: the `state` enum of the Blog schema. -/
inductive BlogState
  | draft
  | published
deriving DecidableEq

/-- A Blog document (models/Blog.js). `id` is the document identifier (as
its hex string), `author` the id of the referenced User. -/
structure Blog where
  id : List Char
  title : List Char
  description : List Char
  author : Nat
  state : BlogState
  read_count : Nat
  reading_time : Nat
  tags : List (List Char)
  body : List Char
  timestamp : Nat
deriving DecidableEq

/-- ASCII lowercasing, to model the case-insensitive `$options: 'i'`. -/
def lowerChar (c : Char) : Char :=
  c.toLower

/-- `needle` occurs as a contiguous sublist of `hay`. -/
def isSubstr : List Char → List Char → Bool
  | needle, [] => needle.isEmpty
  | needle, c :: rest => List.isPrefixOf needle (c :: rest) || isSubstr needle rest

/-- `hay` contains `needle` as a case-insensitive substring. Models the
persistence collaborator's `$regex: search, $options: 'i'` for a
metacharacter-free pattern (the spec's pure substring containment). -/
def containsCI (hay needle : List Char) : Bool :=
  isSubstr (needle.map lowerChar) (hay.map lowerChar)

/-- The sortable fields of the public listing (`orderBy`). -/
inductive SortField
  | read_count
  | reading_time
  | timestamp
deriving DecidableEq

/-- The numeric key a sort field reads off a blog. -/
def sortKey : SortField → Blog → Nat
  | SortField.read_count, b => b.read_count
  | SortField.reading_time, b => b.reading_time
  | SortField.timestamp, b => b.timestamp

/-- Query parameters of GET /api/blogs; `none` models an absent (or, for
the numeric ones, non-numeric, hence NaN) query-string entry. -/
structure ListQuery where
  page : Option Nat
  limit : Option Nat
  search : Option (List Char)
  orderBy : Option SortField
  order : Option (List Char)
deriving DecidableEq

/-- `parseInt(x) || d`: absent (NaN) and `0` both fall back to the default,
`0` being falsy in JavaScript. -/
def orDefault (x : Option Nat) (d : Nat) : Nat :=
  match x with
  | none => d
  | some 0 => d
  | some (n + 1) => n + 1

/-- The string "asc". -/
def strAsc : List Char :=
  ['a', 's', 'c']

/-- The MongoDB filter built by `getAllPublishedBlogs`:
`{ state: 'published' }` plus, when `search` is non-empty, an `$or` of
case-insensitive regexes on `title` and on the `tags` array (an array field
matches when some element does). -/
def matchesQuery (search : List Char) (b : Blog) : Bool :=
  (b.state == BlogState.published) &&
    (if search.isEmpty then true
     else containsCI b.title search || b.tags.any (fun t => containsCI t search))

/-- Claim-side search predicate: a published blog whose title or tags
contain the search string as a case-insensitive substring. -/
def specSearchMatch (search : List Char) (b : Blog) : Bool :=
  (b.state == BlogState.published) &&
    (containsCI b.title search || b.tags.any (fun t => containsCI t search))

/-- Insertion step of the collaborator's sort. -/
def insertSorted (le : Blog → Blog → Bool) (b : Blog) : List Blog → List Blog
  | [] => [b]
  | x :: xs => if le b x then b :: x :: xs else x :: insertSorted le b xs

/-- The persistence collaborator's `.sort(sortSpec)`, modelled as an
insertion sort by the boolean comparator `le`. -/
def sortBlogs (le : Blog → Blog → Bool) : List Blog → List Blog
  | [] => []
  | x :: xs => insertSorted le x (sortBlogs le xs)

/-- The comparator `sort[orderBy] = order` induces: ascending on the key
when `order` is `1`, descending when `-1`. -/
def blogLE (f : SortField) (asc : Bool) (a b : Blog) : Bool :=
  if asc then decide (sortKey f a ≤ sortKey f b)
  else decide (sortKey f b ≤ sortKey f a)

/-- The success payload of GET /api/blogs. -/
structure ListResponse where
  blogs : List Blog
  currentPage : Nat
  totalPages : Nat
  totalBlogs : Nat
  limit : Nat
deriving DecidableEq

/-- `const page = parseInt(req.query.page) || 1`. -/
def effPage (q : ListQuery) : Nat :=
  orDefault q.page 1

/-- `const limit = parseInt(req.query.limit) || 20`. -/
def effLimit (q : ListQuery) : Nat :=
  orDefault q.limit 20

/-- `const search = req.query.search || ''`. -/
def effSearch (q : ListQuery) : List Char :=
  q.search.getD []

/-- `const orderBy = req.query.orderBy || 'timestamp'`. -/
def effOrderBy (q : ListQuery) : SortField :=
  q.orderBy.getD SortField.timestamp

/-- `req.query.order === 'asc' ? 1 : -1`, as the Boolean "ascending". -/
def effAsc (q : ListQuery) : Bool :=
  q.order == some strAsc

/-- `Blog.find(query)`: the stored blogs passing the filter. -/
def matchedBlogs (db : List Blog) (q : ListQuery) : List Blog :=
  db.filter (matchesQuery (effSearch q))

/-- The matched blogs sorted by the requested field and direction. -/
def sortedBlogs (db : List Blog) (q : ListQuery) : List Blog :=
  sortBlogs (blogLE (effOrderBy q) (effAsc q)) (matchedBlogs db q)

/-- `getAllPublishedBlogs` from the blog controller over a database `db`:
filter to published (plus search), sort, `skip((page-1)*limit)`,
`limit(limit)`, and the pagination metadata with
`totalPages = Math.ceil(totalBlogs / limit)`. -/
def getAllPublishedBlogs (db : List Blog) (q : ListQuery) : ListResponse :=
  { blogs := ((sortedBlogs db q).drop ((effPage q - 1) * effLimit q)).take
      (effLimit q)
    currentPage := effPage q
    totalPages := ((matchedBlogs db q).length + effLimit q - 1) / effLimit q
    totalBlogs := (matchedBlogs db q).length
    limit := effLimit q }

theorem mem_insertSorted (le : Blog → Blog → Bool) (b x : Blog)
    (l : List Blog) : x ∈ insertSorted le b l ↔ x = b ∨ x ∈ l := by
  induction l with
  | nil => simp [insertSorted]
  | cons y ys ih =>
    rw [insertSorted]
    by_cases h : le b y = true
    · simp [if_pos h]
    · simp only [if_neg h, List.mem_cons, ih]
      tauto

theorem mem_sortBlogs (le : Blog → Blog → Bool) (x : Blog) (l : List Blog) :
    x ∈ sortBlogs le l ↔ x ∈ l := by
  induction l with
  | nil => simp [sortBlogs]
  | cons y ys ih =>
    rw [sortBlogs, mem_insertSorted]
    simp [ih]

theorem length_insertSorted (le : Blog → Blog → Bool) (b : Blog)
    (l : List Blog) : (insertSorted le b l).length = l.length + 1 := by
  induction l with
  | nil => rfl
  | cons y ys ih =>
    rw [insertSorted]
    by_cases h : le b y = true
    · simp [if_pos h]
    · simp [if_neg h, ih]

theorem length_sortBlogs (le : Blog → Blog → Bool) (l : List Blog) :
    (sortBlogs le l).length = l.length := by
  induction l with
  | nil => rfl
  | cons y ys ih =>
    rw [sortBlogs, length_insertSorted, ih, List.length_cons]

theorem pairwise_insertSorted (le : Blog → Blog → Bool)
    (htot : ∀ a b, le a b = false → le b a = true)
    (htrans : ∀ a b c, le a b = true → le b c = true → le a c = true)
    (b : Blog) (l : List Blog) (hl : l.Pairwise (fun a c => le a c = true)) :
    (insertSorted le b l).Pairwise (fun a c => le a c = true) := by
  induction l with
  | nil => simp [insertSorted]
  | cons x xs ih =>
    rw [insertSorted]
    by_cases h : le b x = true
    · rw [if_pos h]
      refine List.Pairwise.cons ?_ hl
      intro y hy
      rcases List.mem_cons.mp hy with rfl | hy'
      · exact h
      · exact htrans b x y h (List.rel_of_pairwise_cons hl hy')
    · rw [if_neg h]
      have hx : le x b = true := htot b x (by simpa using h)
      obtain ⟨hxall, hxs⟩ := List.pairwise_cons.mp hl
      refine List.pairwise_cons.mpr ⟨?_, ih hxs⟩
      intro y hy
      rcases (mem_insertSorted le b y xs).mp hy with rfl | hy'
      · exact hx
      · exact hxall y hy'

theorem pairwise_sortBlogs (le : Blog → Blog → Bool)
    (htot : ∀ a b, le a b = false → le b a = true)
    (htrans : ∀ a b c, le a b = true → le b c = true → le a c = true)
    (l : List Blog) :
    (sortBlogs le l).Pairwise (fun a c => le a c = true) := by
  induction l with
  | nil => simp [sortBlogs]
  | cons y ys ih => exact pairwise_insertSorted le htot htrans y _ ih

theorem blogLE_total (f : SortField) (asc : Bool) :
    ∀ a b, blogLE f asc a b = false → blogLE f asc b a = true := by
  intro a b
  cases asc <;> simp [blogLE] <;> omega

theorem blogLE_trans (f : SortField) (asc : Bool) :
    ∀ a b c, blogLE f asc a b = true → blogLE f asc b c = true →
      blogLE f asc a c = true := by
  intro a b c
  cases asc <;> simp [blogLE] <;> omega

/-- Every blog a listing response returns comes from the matched set. -/
theorem listing_mem_matched (db : List Blog) (q : ListQuery) (b : Blog)
    (hb : b ∈ (getAllPublishedBlogs db q).blogs) : b ∈ matchedBlogs db q := by
  have hb' : b ∈ ((sortedBlogs db q).drop
      ((effPage q - 1) * effLimit q)).take (effLimit q) := hb
  have h1 : b ∈ sortedBlogs db q :=
    List.mem_of_mem_drop (List.mem_of_mem_take hb')
  exact (mem_sortBlogs _ b _).mp h1

/-- Claim C2: for every parameter combination the public listing returns
only published blogs, and with a non-empty search the matched set is
exactly the published blogs whose title or tags contain the search string
as a case-insensitive substring. -/
theorem C2_listing_published_search (db : List Blog) (q : ListQuery) :
    (∀ b ∈ (getAllPublishedBlogs db q).blogs, b.state = BlogState.published) ∧
      (∀ s : List Char, q.search = some s → s ≠ [] →
        (∀ b ∈ (getAllPublishedBlogs db q).blogs, specSearchMatch s b) ∧
          db.filter (matchesQuery s) = db.filter (specSearchMatch s) ∧
          (getAllPublishedBlogs db q).totalBlogs =
            (db.filter (specSearchMatch s)).length) := by
  constructor
  · intro b hb
    have hm := listing_mem_matched db q b hb
    have hq : matchesQuery (effSearch q) b = true := List.of_mem_filter hm
    have hstate := (Bool.and_eq_true _ _).mp hq |>.1
    simpa using hstate
  · intro s hs hne
    have hse : effSearch q = s := by simp [effSearch, hs]
    have hnemp : s.isEmpty = false := by
      cases s with
      | nil => exact absurd rfl hne
      | cons c cs => rfl
    have hpt : ∀ b : Blog, matchesQuery s b = specSearchMatch s b := by
      intro b
      simp [matchesQuery, specSearchMatch, hnemp]
    refine ⟨?_, ?_, ?_⟩
    · intro b hb
      have hm := listing_mem_matched db q b hb
      have hq : matchesQuery (effSearch q) b = true := List.of_mem_filter hm
      rw [hse, hpt b] at hq
      exact hq
    · exact List.filter_congr (fun b _ => hpt b)
    · show (matchedBlogs db q).length = _
      rw [matchedBlogs, hse, List.filter_congr (fun b _ => hpt b)]

/-- Ceiling-division bounds: `(t + l - 1) / l` rounds `t / l` up. -/
theorem ceilDiv_bounds (t l : Nat) (hl : 1 ≤ l) :
    t ≤ ((t + l - 1) / l) * l ∧ (0 < t → ((t + l - 1) / l - 1) * l < t) := by
  constructor
  · by_contra hcon
    push_neg at hcon
    have hexp : ((t + l - 1) / l + 1) * l = ((t + l - 1) / l) * l + l := by ring
    have h1 : ((t + l - 1) / l + 1) * l ≤ t + l - 1 := by omega
    have h2 : (t + l - 1) / l + 1 ≤ (t + l - 1) / l :=
      (Nat.le_div_iff_mul_le (by omega)).mpr h1
    omega
  · intro ht
    by_contra hcon
    push_neg at hcon
    rcases Nat.eq_zero_or_pos ((t + l - 1) / l) with hq0 | hq1
    · rw [hq0] at hcon
      simp at hcon
      omega
    · obtain ⟨k, hk⟩ : ∃ k, (t + l - 1) / l = k + 1 :=
        ⟨(t + l - 1) / l - 1, by omega⟩
      have hexp : ((t + l - 1) / l - 1) * l + l = ((t + l - 1) / l) * l := by
        rw [hk, Nat.add_sub_cancel]
        ring
      have h1 : t + l - 1 < ((t + l - 1) / l) * l := by omega
      have h2 : (t + l - 1) / l < (t + l - 1) / l :=
        (Nat.div_lt_iff_lt_mul (by omega)).mpr h1
      omega

/-- The number of records a listing page holds. -/
theorem listing_length (db : List Blog) (q : ListQuery) :
    (getAllPublishedBlogs db q).blogs.length =
      min (effLimit q)
        ((matchedBlogs db q).length - (effPage q - 1) * effLimit q) := by
  show (((sortedBlogs db q).drop ((effPage q - 1) * effLimit q)).take
      (effLimit q)).length = _
  rw [List.length_take, List.length_drop]
  have hsl : (sortedBlogs db q).length = (matchedBlogs db q).length :=
    length_sortBlogs _ _
  rw [hsl]

/-- Claim C3: the listing computes its offset as `(page-1)*limit`, sorts by
the requested field descending for every order value other than exactly
"asc" (ascending for "asc"), returns currentPage = page,
`totalPages = ceil(totalMatches/limit)` (characterized by its bounds), the
total match count and the effective limit; with limit 5 and 12 matches,
totalPages is 3 and page 3 holds exactly 2 records. -/
theorem C3_pagination_sorting (db : List Blog) (q : ListQuery) :
    ((getAllPublishedBlogs db q).currentPage = orDefault q.page 1 ∧
        (getAllPublishedBlogs db q).limit = orDefault q.limit 20 ∧
        (getAllPublishedBlogs db q).totalBlogs =
          (db.filter (matchesQuery (effSearch q))).length) ∧
      (getAllPublishedBlogs db q).blogs.length =
        min (orDefault q.limit 20)
          ((getAllPublishedBlogs db q).totalBlogs -
            (orDefault q.page 1 - 1) * orDefault q.limit 20) ∧
      ((getAllPublishedBlogs db q).totalBlogs ≤
          (getAllPublishedBlogs db q).totalPages * orDefault q.limit 20 ∧
        (0 < (getAllPublishedBlogs db q).totalBlogs →
          ((getAllPublishedBlogs db q).totalPages - 1) * orDefault q.limit 20 <
            (getAllPublishedBlogs db q).totalBlogs)) ∧
      (q.order = some strAsc →
        (getAllPublishedBlogs db q).blogs.Pairwise
          (fun a b => sortKey (effOrderBy q) a ≤ sortKey (effOrderBy q) b)) ∧
      (q.order ≠ some strAsc →
        (getAllPublishedBlogs db q).blogs.Pairwise
          (fun a b => sortKey (effOrderBy q) b ≤ sortKey (effOrderBy q) a)) ∧
      (q.limit = some 5 → (getAllPublishedBlogs db q).totalBlogs = 12 →
        ((getAllPublishedBlogs db q).totalPages = 3 ∧
          (q.page = some 3 →
            (getAllPublishedBlogs db q).blogs.length = 2))) := by
  have hl1 : 1 ≤ effLimit q := by
    show 1 ≤ orDefault q.limit 20
    cases q.limit with
    | none => decide
    | some n =>
      cases n with
      | zero => decide
      | succ m =>
        simp only [orDefault]
        omega
  have hsorted : ((getAllPublishedBlogs db q).blogs).Pairwise
      (fun a b => blogLE (effOrderBy q) (effAsc q) a b = true) := by
    have hp := pairwise_sortBlogs (blogLE (effOrderBy q) (effAsc q))
      (blogLE_total _ _) (blogLE_trans _ _) (matchedBlogs db q)
    have hsub : List.Sublist (getAllPublishedBlogs db q).blogs
        (sortedBlogs db q) :=
      (List.take_sublist _ _).trans (List.drop_sublist _ _)
    exact List.Pairwise.sublist hsub hp
  refine ⟨⟨rfl, rfl, rfl⟩, listing_length db q, ?_, ?_, ?_, ?_⟩
  · exact ceilDiv_bounds (matchedBlogs db q).length (effLimit q) hl1
  · intro hasc
    have heA : effAsc q = true := by simp [effAsc, hasc]
    refine hsorted.imp ?_
    intro a b hab
    rw [heA] at hab
    simpa [blogLE] using hab
  · intro hasc
    have heA : effAsc q = false := by
      simp only [effAsc]
      exact beq_eq_false_iff_ne.mpr hasc
    refine hsorted.imp ?_
    intro a b hab
    rw [heA] at hab
    simpa [blogLE] using hab
  · intro h5 h12
    have h12' : (matchedBlogs db q).length = 12 := h12
    have hl5 : effLimit q = 5 := by simp [effLimit, orDefault, h5]
    constructor
    · show ((matchedBlogs db q).length + effLimit q - 1) / effLimit q = 3
      rw [h12', hl5]
    · intro h3
      rw [listing_length db q, h12', hl5]
      have hp3 : effPage q = 3 := by simp [effPage, orDefault, h3]
      rw [hp3]
      decide

/-- Sample published blog with timestamp `n`. -/
def blogPub (n : Nat) : Blog :=
  { id := ['b'], title := ['t'], description := [], author := 1,
    state := BlogState.published, read_count := 0, reading_time := 1,
    tags := [], body := ['x'], timestamp := n }

/-- Sample draft blog. -/
def blogDraftSample : Blog :=
  { id := ['d'], title := ['t'], description := [], author := 1,
    state := BlogState.draft, read_count := 0, reading_time := 1,
    tags := [], body := ['x'], timestamp := 0 }

/-- Twelve published blogs. -/
def db12 : List Blog :=
  (List.range 12).map blogPub

/-- Page 3 at limit 5. -/
def q3 : ListQuery :=
  { page := some 3, limit := some 5, search := none, orderBy := none,
    order := none }

/-- A mixed database for the search witness. -/
def dbCW : List Blog :=
  [blogPub 0, blogDraftSample]

/-- A query searching for "t". -/
def qSearch : ListQuery :=
  { page := none, limit := none, search := some ['t'], orderBy := none,
    order := none }

theorem C2_listing_published_search_witness :
    dbCW.filter (matchesQuery ['t']) = dbCW.filter (specSearchMatch ['t']) :=
  ((C2_listing_published_search dbCW qSearch).2 ['t'] rfl (by decide)).2.1

theorem C3_pagination_sorting_witness :
    (getAllPublishedBlogs db12 q3).totalPages = 3 ∧
      (getAllPublishedBlogs db12 q3).blogs.length = 2 := by
  have h := (C3_pagination_sorting db12 q3).2.2.2.2.2 rfl (by decide)
  exact ⟨h.1, h.2 rfl⟩

/-! ## Single published blog fetch (GET /api/blogs/:id) -/

/-- Response of the single-blog fetch: status code and, on success, the
returned blog. -/
structure FetchResponse where
  status : Nat
  blog : Option Blog
deriving DecidableEq

/-- `incrementReadCount` from models/Blog.js: `this.read_count += 1`. -/
def incrementReadCount (b : Blog) : Blog :=
  { b with read_count := b.read_count + 1 }

/-- `save()` on a loaded document: writes it back over the stored document
carrying the same id. -/
def saveBlog (db : List Blog) (b : Blog) : List Blog :=
  db.map (fun x => if x.id == b.id then b else x)

/-- `getBlogById` from the blog controller: `findOne({ _id: id, state:
'published' })`; 404 when absent; otherwise increment `read_count`, save,
and answer 200 with the blog. -/
def getBlogById (db : List Blog) (i : List Char) :
    FetchResponse × List Blog :=
  match db.find? (fun b => b.id == i && b.state == BlogState.published) with
  | none => ({ status := 404, blog := none }, db)
  | some b =>
    let b' := incrementReadCount b
    ({ status := 200, blog := some b' }, saveBlog db b')

/-- `n` successive single-blog fetches of id `i`. -/
def fetchN : Nat → List Blog → List Char → List Blog
  | 0, db, _ => db
  | n + 1, db, i => fetchN n (getBlogById db i).2 i

/-- The stored read count of the blog with id `i` (0 when absent). -/
def readCountOf (db : List Blog) (i : List Char) : Nat :=
  match db.find? (fun x => x.id == i) with
  | some x => x.read_count
  | none => 0

/-- With distinct ids, `find?` under a predicate pinned to one id returns
the unique member with that id. -/
theorem find?_of_nodup_ids (db : List Blog) (b : Blog) (p : Blog → Bool)
    (hnd : (db.map Blog.id).Nodup) (hb : b ∈ db) (hpb : p b = true)
    (hpid : ∀ x, p x = true → x.id = b.id) :
    db.find? p = some b := by
  induction db with
  | nil => exact absurd hb (List.not_mem_nil b)
  | cons x rest ih =>
    rw [List.map_cons, List.nodup_cons] at hnd
    obtain ⟨hx, hnd'⟩ := hnd
    by_cases hpx : p x = true
    · have hxi : x.id = b.id := hpid x hpx
      rcases List.mem_cons.mp hb with rfl | hbr
      · rw [List.find?_cons_of_pos _ hpx]
      · exact absurd (hxi ▸ List.mem_map_of_mem Blog.id hbr) hx
    · have hbx : b ≠ x := by
        intro hcon
        rw [hcon] at hpb
        exact hpx hpb
      rcases List.mem_cons.mp hb with rfl | hbr
      · exact absurd rfl hbx
      · rw [List.find?_cons_of_neg _ (by simpa using hpx)]
        exact ih hnd' hbr

/-- Writing a document back over its id keeps the stored id list. -/
theorem saveBlog_map_id (db : List Blog) (b : Blog) :
    (saveBlog db b).map Blog.id = db.map Blog.id := by
  rw [saveBlog, List.map_map]
  refine List.map_congr_left ?_
  intro x hx
  by_cases h : x.id == b.id
  · have heq : x.id = b.id := by simpa using h
    simp [Function.comp, h, heq]
  · simp [Function.comp, h]

/-- The written-back document is a member of the saved database whenever a
document with its id was stored. -/
theorem mem_saveBlog (db : List Blog) (b b' : Blog) (hb : b ∈ db)
    (hid : b.id = b'.id) : b' ∈ saveBlog db b' := by
  rw [saveBlog]
  refine List.mem_map.mpr ⟨b, hb, ?_⟩
  simp [hid]

/-- A lookup that no published blog satisfies answers 404 and leaves the
database untouched. -/
theorem getBlogById_notFound (db : List Blog) (i : List Char)
    (hno : ¬ ∃ x ∈ db, x.id = i ∧ x.state = BlogState.published) :
    getBlogById db i = ({ status := 404, blog := none }, db) := by
  have hfind : db.find?
      (fun x => x.id == i && x.state == BlogState.published) = none := by
    rw [List.find?_eq_none]
    intro x hx hcon
    refine hno ⟨x, hx, ?_⟩
    have hsplit := (Bool.and_eq_true _ _).mp hcon
    exact ⟨by simpa using hsplit.1, by simpa using hsplit.2⟩
  rw [getBlogById, hfind]

/-- A successful lookup returns the incremented blog and saves it. -/
theorem getBlogById_found (db : List Blog) (b : Blog) (i : List Char)
    (hnd : (db.map Blog.id).Nodup) (hb : b ∈ db) (hid : b.id = i)
    (hpub : b.state = BlogState.published) :
    getBlogById db i =
      ({ status := 200, blog := some (incrementReadCount b) },
        saveBlog db (incrementReadCount b)) := by
  have hfind := find?_of_nodup_ids db b
    (fun x => x.id == i && x.state == BlogState.published) hnd hb
    (by simp [hid, hpub])
    (fun x hx => by
      have hsplit := (Bool.and_eq_true _ _).mp hx
      have h1 : x.id = i := by simpa using hsplit.1
      rw [h1, hid])
  rw [getBlogById, hfind]

/-- `n` successful fetches raise the stored read count by exactly `n`. -/
theorem readCount_fetchN (i : List Char) :
    ∀ n : Nat, ∀ db : List Blog, ∀ b : Blog,
      (db.map Blog.id).Nodup → b ∈ db → b.id = i →
      b.state = BlogState.published →
      readCountOf (fetchN n db i) i = b.read_count + n := by
  intro n
  induction n with
  | zero =>
    intro db b hnd hb hid hpub
    have hfind := find?_of_nodup_ids db b (fun x => x.id == i) hnd hb
      (by simp [hid])
      (fun x hx => by
        have h1 : x.id = i := by simpa using hx
        rw [h1, hid])
    show readCountOf db i = b.read_count + 0
    rw [readCountOf, hfind]
    rfl
  | succ m ih =>
    intro db b hnd hb hid hpub
    show readCountOf (fetchN m (getBlogById db i).2 i) i = _
    rw [getBlogById_found db b i hnd hb hid hpub]
    have hnd2 : ((saveBlog db (incrementReadCount b)).map Blog.id).Nodup := by
      rw [saveBlog_map_id]
      exact hnd
    have hmem2 : incrementReadCount b ∈ saveBlog db (incrementReadCount b) :=
      mem_saveBlog db b (incrementReadCount b) hb rfl
    have hres := ih (saveBlog db (incrementReadCount b))
      (incrementReadCount b) hnd2 hmem2 hid hpub
    rw [hres]
    show b.read_count + 1 + m = b.read_count + (m + 1)
    omega

/-- Claim C4: the published-only single fetch answers 404 when no published
blog carries the id; an id carried only by a draft is indistinguishable
from a nonexistent id (identical response and identical database); a
successful fetch returns the blog with `read_count` incremented by exactly
one, and `n` successive fetches raise the stored count by exactly `n`. -/
theorem C4_get_blog_by_id (db : List Blog) (i j : List Char) (b : Blog)
    (n : Nat) :
    ((¬ ∃ x ∈ db, x.id = i ∧ x.state = BlogState.published) →
        getBlogById db i = ({ status := 404, blog := none }, db)) ∧
      ((¬ ∃ x ∈ db, x.id = i ∧ x.state = BlogState.published) →
        (¬ ∃ x ∈ db, x.id = j ∧ x.state = BlogState.published) →
          getBlogById db i = getBlogById db j) ∧
      ((db.map Blog.id).Nodup → b ∈ db → b.id = i →
        b.state = BlogState.published →
          (getBlogById db i).1 =
              { status := 200, blog := some (incrementReadCount b) } ∧
            readCountOf (fetchN n db i) i = b.read_count + n) := by
  refine ⟨getBlogById_notFound db i, ?_, ?_⟩
  · intro h1 h2
    rw [getBlogById_notFound db i h1, getBlogById_notFound db j h2]
  · intro hnd hb hid hpub
    constructor
    · rw [getBlogById_found db b i hnd hb hid hpub]
    · exact readCount_fetchN i n db b hnd hb hid hpub

theorem C4_get_blog_by_id_witness :
    (getBlogById [blogDraftSample] ['d']).1.status = 404 ∧
      readCountOf (fetchN 3 [blogPub 5] ['b']) ['b'] = 3 := by
  constructor
  · have h := (C4_get_blog_by_id [blogDraftSample] ['d'] ['d']
      blogDraftSample 0).1 (by decide)
    rw [h]
  · have h := (C4_get_blog_by_id [blogPub 5] ['b'] ['b'] (blogPub 5) 3).2.2
      (by decide) (by decide) rfl rfl
    simpa using h.2

/-! ## Update and delete (PATCH/DELETE /api/blogs/:id) -/

/-- The request body of PATCH /api/blogs/:id; `none` is an absent field. -/
structure UpdatePayload where
  title : Option (List Char)
  description : Option (List Char)
  tags : Option (List (List Char))
  body : Option (List Char)
  state : Option (List Char)
deriving DecidableEq

/-- The string "draft". -/
def strDraft : List Char :=
  ['d', 'r', 'a', 'f', 't']

/-- The string "published". -/
def strPublished : List Char :=
  ['p', 'u', 'b', 'l', 'i', 's', 'h', 'e', 'd']

/-- The field-update block of `updateBlog` (blog controller, lines
300-316), written field-wise; the source's sequential `if` blocks touch
disjoint fields. `if (title)` and `if (body)` are JavaScript truthiness
tests, so a provided empty string is skipped there; `description` is
guarded by `!== undefined` only; `tags`, an array, is always truthy when
provided; `state` is applied only when it is exactly "draft" or
"published". A body update recomputes `reading_time`. -/
def applyUpdate (p : UpdatePayload) (b : Blog) : Blog :=
  { id := b.id
    author := b.author
    read_count := b.read_count
    timestamp := b.timestamp
    title :=
      match p.title with
      | some t => if t = [] then b.title else t
      | none => b.title
    description := p.description.getD b.description
    tags := p.tags.getD b.tags
    body :=
      match p.body with
      | some bd => if bd = [] then b.body else bd
      | none => b.body
    reading_time :=
      match p.body with
      | some bd =>
        if bd = [] then b.reading_time else calculateReadingTime (some bd)
      | none => b.reading_time
    state :=
      match p.state with
      | some st =>
        if st = strDraft then BlogState.draft
        else if st = strPublished then BlogState.published
        else b.state
      | none => b.state }

/-- Response of update/delete: status and the response blog, if any. -/
structure MutResponse where
  status : Nat
  blog : Option Blog
deriving DecidableEq

/-- `updateBlog` from the blog controller: `findById` (no state
restriction) → 404 when absent; author ≠ caller → 403; otherwise apply the
provided fields and save. -/
def updateBlog (db : List Blog) (caller : Nat) (i : List Char)
    (p : UpdatePayload) : MutResponse × List Blog :=
  match db.find? (fun b => b.id == i) with
  | none => ({ status := 404, blog := none }, db)
  | some b =>
    if b.author ≠ caller then ({ status := 403, blog := none }, db)
    else
      let b' := applyUpdate p b
      ({ status := 200, blog := some b' }, saveBlog db b')

/-- `deleteBlog` from the blog controller: `findById` → 404 when absent;
author ≠ caller → 403; otherwise `findByIdAndDelete`. -/
def deleteBlog (db : List Blog) (caller : Nat) (i : List Char) :
    MutResponse × List Blog :=
  match db.find? (fun b => b.id == i) with
  | none => ({ status := 404, blog := none }, db)
  | some b =>
    if b.author ≠ caller then ({ status := 403, blog := none }, db)
    else ({ status := 200, blog := none }, db.filter (fun x => !(x.id == i)))

/-- Claim C5: for both update and delete, a nonexistent id answers 404 for
every caller (owner or not), and an existing id owned by someone else
answers 403 with the database untouched; since the 404 answer ignores the
caller entirely, the not-found check precedes the ownership check. -/
theorem C5_notfound_precedes_forbidden (db : List Blog) (caller : Nat)
    (i : List Char) (p : UpdatePayload) (b : Blog) :
    ((¬ ∃ x ∈ db, x.id = i) →
        updateBlog db caller i p = ({ status := 404, blog := none }, db) ∧
          deleteBlog db caller i = ({ status := 404, blog := none }, db)) ∧
      ((db.map Blog.id).Nodup → b ∈ db → b.id = i → b.author ≠ caller →
        updateBlog db caller i p = ({ status := 403, blog := none }, db) ∧
          deleteBlog db caller i = ({ status := 403, blog := none }, db)) := by
  constructor
  · intro hno
    have hfind : db.find? (fun x => x.id == i) = none := by
      rw [List.find?_eq_none]
      intro x hx hcon
      exact hno ⟨x, hx, by simpa using hcon⟩
    constructor
    · rw [updateBlog, hfind]
    · rw [deleteBlog, hfind]
  · intro hnd hb hid hown
    have hfind := find?_of_nodup_ids db b (fun x => x.id == i) hnd hb
      (by simp [hid])
      (fun x hx => by
        have h1 : x.id = i := by simpa using hx
        rw [h1, hid])
    constructor
    · rw [updateBlog, hfind]
      exact if_pos hown
    · rw [deleteBlog, hfind]
      exact if_pos hown

theorem C5_notfound_precedes_forbidden_witness :
    updateBlog [blogPub 0] 9 ['z']
        { title := none, description := none, tags := none, body := none,
          state := none } =
      ({ status := 404, blog := none }, [blogPub 0]) ∧
      deleteBlog [blogPub 0] 9 ['b'] =
        ({ status := 403, blog := none }, [blogPub 0]) := by
  constructor
  · exact ((C5_notfound_precedes_forbidden [blogPub 0] 9 ['z']
      { title := none, description := none, tags := none, body := none,
        state := none } (blogPub 0)).1 (by decide)).1
  · exact ((C5_notfound_precedes_forbidden [blogPub 0] 9 ['b']
      { title := none, description := none, tags := none, body := none,
        state := none } (blogPub 0)).2 (by decide) (by decide) rfl
      (by decide)).2

/-- Counterexample to claim C6 as stated: with a stored title "t", a
request providing `title = ""` (a provided field) leaves the title "t"
instead of overwriting it with the provided empty string, because
`if (title)` is a truthiness test. -/
theorem C6_counterexample :
    Option.map Blog.title
        (updateBlog [blogPub 0] 1 ['b']
            { title := some [], description := none, tags := none,
              body := none, state := none }).1.blog = some ['t'] ∧
      (['t'] : List Char) ≠ ([] : List Char) := by
  constructor
  · decide
  · decide

/-- Claim C6 (amended): partial-update semantics, except that a provided
EMPTY title or body is ignored like an absent field (JavaScript truthiness
guards), so title and body overwrite only when provided non-empty; a
provided description overwrites even when empty (absence distinguished
from empty string); provided tags overwrite; providing a non-empty body
recomputes reading_time from it; a provided state outside
{draft, published} is silently ignored; absent fields are unchanged, and
id, author, read_count and timestamp are never touched. -/
theorem C6_partial_update (db : List Blog) (caller : Nat) (i : List Char)
    (p : UpdatePayload) (b : Blog)
    (hnd : (db.map Blog.id).Nodup) (hb : b ∈ db) (hid : b.id = i)
    (hown : b.author = caller) :
    (updateBlog db caller i p =
        ({ status := 200, blog := some (applyUpdate p b) },
          saveBlog db (applyUpdate p b))) ∧
      ((p.title = none ∨ p.title = some []) →
        (applyUpdate p b).title = b.title) ∧
      (∀ t, p.title = some t → t ≠ [] → (applyUpdate p b).title = t) ∧
      (p.description = none →
        (applyUpdate p b).description = b.description) ∧
      (∀ d, p.description = some d → (applyUpdate p b).description = d) ∧
      (p.tags = none → (applyUpdate p b).tags = b.tags) ∧
      (∀ ts, p.tags = some ts → (applyUpdate p b).tags = ts) ∧
      ((p.body = none ∨ p.body = some []) →
        (applyUpdate p b).body = b.body ∧
          (applyUpdate p b).reading_time = b.reading_time) ∧
      (∀ bd, p.body = some bd → bd ≠ [] →
        (applyUpdate p b).body = bd ∧
          (applyUpdate p b).reading_time = calculateReadingTime (some bd)) ∧
      (p.state = none → (applyUpdate p b).state = b.state) ∧
      (∀ st, p.state = some st → st ≠ strDraft → st ≠ strPublished →
        (applyUpdate p b).state = b.state) ∧
      (p.state = some strDraft →
        (applyUpdate p b).state = BlogState.draft) ∧
      (p.state = some strPublished →
        (applyUpdate p b).state = BlogState.published) ∧
      ((applyUpdate p b).id = b.id ∧ (applyUpdate p b).author = b.author ∧
        (applyUpdate p b).read_count = b.read_count ∧
        (applyUpdate p b).timestamp = b.timestamp) := by
  have hfind := find?_of_nodup_ids db b (fun x => x.id == i) hnd hb
    (by simp [hid])
    (fun x hx => by
      have h1 : x.id = i := by simpa using hx
      rw [h1, hid])
  refine ⟨?_, ?_, ?_, ?_, ?_, ?_, ?_, ?_, ?_, ?_, ?_, ?_, ?_, ?_⟩
  · rw [updateBlog, hfind]
    exact if_neg (by simp [hown])
  · rintro (h | h) <;> simp [applyUpdate, h]
  · intro t ht hne
    simp [applyUpdate, ht, hne]
  · intro h
    simp [applyUpdate, h]
  · intro d hd
    simp [applyUpdate, hd]
  · intro h
    simp [applyUpdate, h]
  · intro ts hts
    simp [applyUpdate, hts]
  · rintro (h | h) <;> simp [applyUpdate, h]
  · intro bd hbd hne
    simp [applyUpdate, hbd, hne]
  · intro h
    simp [applyUpdate, h]
  · intro st hst h1 h2
    simp [applyUpdate, hst, h1, h2]
  · intro h
    simp [applyUpdate, h]
  · intro h
    simp [applyUpdate, h, strDraft, strPublished]
  · exact ⟨rfl, rfl, rfl, rfl⟩

theorem C6_partial_update_witness :
    updateBlog [blogPub 0] 1 ['b']
        { title := none, description := none, tags := some [['x']],
          body := none, state := none } =
      ({ status := 200,
          blog := some (applyUpdate
            { title := none, description := none, tags := some [['x']],
              body := none, state := none } (blogPub 0)) },
        saveBlog [blogPub 0] (applyUpdate
          { title := none, description := none, tags := some [['x']],
            body := none, state := none } (blogPub 0))) ∧
      (applyUpdate
          { title := none, description := none, tags := some [['x']],
            body := none, state := none } (blogPub 0)).title =
        (blogPub 0).title := by
  have h := C6_partial_update [blogPub 0] 1 ['b']
    { title := none, description := none, tags := some [['x']],
      body := none, state := none } (blogPub 0)
    (by decide) (by decide) rfl rfl
  exact ⟨h.1, h.2.1 (Or.inl rfl)⟩

/-! ## Create (POST /api/blogs) -/

/-- The request body of POST /api/blogs. The controller destructures only
title, description, tags and body; a caller-supplied `state` is carried
here to show it is ignored. -/
structure CreatePayload where
  title : Option (List Char)
  description : Option (List Char)
  tags : Option (List (List Char))
  body : Option (List Char)
  state : Option (List Char)
deriving DecidableEq

/-- The document `new Blog({...})` builds on a valid create request. -/
def builtBlog (caller : Nat) (newId : List Char) (now : Nat)
    (p : CreatePayload) (t bd : List Char) : Blog :=
  { id := newId, title := t, description := p.description.getD [],
    author := caller, state := BlogState.draft, read_count := 0,
    reading_time := calculateReadingTime (some bd),
    tags := p.tags.getD [], body := bd, timestamp := now }

/-- `createBlog` from the blog controller: `if (!title || !body)` → 400
(truthiness: absent or empty string both fail); otherwise build the new
document with `tags: tags || []`, `reading_time` computed from the body,
the authenticated caller as author, `state: 'draft'`, default
`read_count: 0`, and save it. `newId`/`now` stand for the generated
document id and creation time. -/
def createBlog (db : List Blog) (caller : Nat) (newId : List Char)
    (now : Nat) (p : CreatePayload) : MutResponse × List Blog :=
  match p.title, p.body with
  | some t, some bd =>
    if t = [] || bd = [] then ({ status := 400, blog := none }, db)
    else
      let blog := builtBlog caller newId now p t bd
      ({ status := 201, blog := some blog }, db ++ [blog])
  | _, _ => ({ status := 400, blog := none }, db)

/-- Claim C7: create fails with a 400 validation error unless both title
and body are provided non-empty; on success the new blog carries the
supplied tags (empty when absent), a reading_time computed from the body
by the estimator, the creating identity as author, read_count 0, and state
draft regardless of any caller-supplied state value. -/
theorem C7_create_blog (db : List Blog) (caller : Nat) (newId : List Char)
    (now : Nat) (p : CreatePayload) :
    ((p.title = none ∨ p.title = some [] ∨ p.body = none ∨
          p.body = some []) →
        createBlog db caller newId now p =
          ({ status := 400, blog := none }, db)) ∧
      (∀ t bd, p.title = some t → t ≠ [] → p.body = some bd → bd ≠ [] →
        ∃ blog : Blog,
          createBlog db caller newId now p =
              ({ status := 201, blog := some blog }, db ++ [blog]) ∧
            blog.title = t ∧ blog.body = bd ∧
            blog.tags = p.tags.getD [] ∧
            blog.description = p.description.getD [] ∧
            blog.reading_time = calculateReadingTime (some bd) ∧
            blog.author = caller ∧ blog.read_count = 0 ∧
            blog.state = BlogState.draft) := by
  constructor
  · intro h
    rcases ht : p.title with _ | t <;> rcases hb : p.body with _ | bd <;>
      simp only [createBlog, ht, hb]
    rw [ht, hb] at h
    have htb : (t = [] || bd = []) = true := by
      rcases h with h | h | h | h
      · exact absurd h (by simp)
      · injection h with h1
        simp [h1]
      · exact absurd h (by simp)
      · injection h with h1
        simp [h1]
    rw [if_pos htb]
  · intro t bd ht hne hb hbne
    refine ⟨builtBlog caller newId now p t bd, ?_,
      rfl, rfl, rfl, rfl, rfl, rfl, rfl, rfl⟩
    simp only [createBlog, ht, hb]
    rw [if_neg (by simp [hne, hbne])]

theorem C7_create_blog_witness :
    ∃ blog : Blog,
      createBlog [] 7 ['n'] 5
          { title := some ['t'], description := none, tags := none,
            body := some ['x'], state := some strPublished } =
          ({ status := 201, blog := some blog }, [] ++ [blog]) ∧
        blog.title = ['t'] ∧ blog.body = ['x'] ∧
        blog.tags = Option.getD none [] ∧
        blog.description = Option.getD none [] ∧
        blog.reading_time = calculateReadingTime (some ['x']) ∧
        blog.author = 7 ∧ blog.read_count = 0 ∧
        blog.state = BlogState.draft :=
  (C7_create_blog [] 7 ['n'] 5
    { title := some ['t'], description := none, tags := none,
      body := some ['x'], state := some strPublished }).2
    ['t'] ['x'] rfl (by decide) rfl (by decide)

/-! ## Authentication: login (authController.js) -/

/-- A stored User document (models/User.js): case-normalized email and a
salted password hash (an abstract value the bcrypt collaborator compares
against). -/
structure User where
  id : Nat
  email : List Char
  passwordHash : Nat
deriving DecidableEq

/-- Response of POST /api/auth/login: status, message, and the logged-in
user id on success. -/
structure LoginResponse where
  status : Nat
  message : String
  userId : Option Nat
deriving DecidableEq

/-- `email.toLowerCase()`. -/
def lowerStr (s : List Char) : List Char :=
  s.map lowerChar

/-- `login` from authController.js. `verify` models the bcrypt
`comparePassword` collaborator; an absent credential is `none` and both
`none` and the empty string fail the `!email || !password` truthiness
check. -/
def login (verify : List Char → Nat → Bool) (db : List User)
    (email password : Option (List Char)) : LoginResponse :=
  match email, password with
  | some e, some pw =>
    if e = [] || pw = [] then
      { status := 400, message := "Email and password are required",
        userId := none }
    else
      match db.find? (fun u => u.email == lowerStr e) with
      | none =>
        { status := 401, message := "Invalid email or password",
          userId := none }
      | some u =>
        if verify pw u.passwordHash then
          { status := 200, message := "Login successful",
            userId := some u.id }
        else
          { status := 401, message := "Invalid email or password",
            userId := none }
  | _, _ =>
    { status := 400, message := "Email and password are required",
      userId := none }

/-- Claim C8: a login against a nonexistent email and a login against an
existing email with a wrong password produce identical responses — same
status, same message — so the response reveals nothing about which
credential was wrong. -/
theorem C8_login_indistinguishable (verify : List Char → Nat → Bool)
    (db : List User) (e1 p1 e2 p2 : List Char) (u : User)
    (h1e : e1 ≠ []) (h1p : p1 ≠ []) (h2e : e2 ≠ []) (h2p : p2 ≠ [])
    (hno : db.find? (fun x => x.email == lowerStr e1) = none)
    (hu : db.find? (fun x => x.email == lowerStr e2) = some u)
    (hwrong : verify p2 u.passwordHash = false) :
    login verify db (some e1) (some p1) =
        login verify db (some e2) (some p2) ∧
      login verify db (some e1) (some p1) =
        { status := 401, message := "Invalid email or password",
          userId := none } := by
  have hl1 : login verify db (some e1) (some p1) =
      { status := 401, message := "Invalid email or password",
        userId := none } := by
    rw [login, if_neg (by simp [h1e, h1p]), hno]
  have hl2 : login verify db (some e2) (some p2) =
      { status := 401, message := "Invalid email or password",
        userId := none } := by
    rw [login, if_neg (by simp [h2e, h2p]), hu]
    exact if_neg (by simp [hwrong])
  exact ⟨hl1.trans hl2.symm, hl1⟩

/-- A bcrypt model for the login witness: the hash is the password
length. -/
def verifySample (pw : List Char) (h : Nat) : Bool :=
  pw.length == h

/-- Sample user for the login witness. -/
def userSample : User :=
  { id := 1, email := ['a'], passwordHash := 1 }

theorem C8_login_indistinguishable_witness :
    login verifySample [userSample] (some ['b']) (some ['x']) =
        login verifySample [userSample] (some ['a']) (some ['x', 'y']) ∧
      login verifySample [userSample] (some ['b']) (some ['x']) =
        { status := 401, message := "Invalid email or password",
          userId := none } :=
  C8_login_indistinguishable verifySample [userSample] ['b'] ['x'] ['a']
    ['x', 'y'] userSample (by decide) (by decide) (by decide) (by decide)
    (by decide) (by decide) (by decide)

/-! ## Identity token (generateToken, authenticate middleware) -/

/-- Claims carried by the identity token. -/
structure TokenPayload where
  userId : Nat
  iat : Nat
  exp : Nat
deriving DecidableEq

/-- A signed token: claims plus signature. -/
structure Token where
  payload : TokenPayload
  sig : Nat
deriving DecidableEq

/-- Modelled from the spec: the token collaborator's `sign(claims, secret,
ttl)` (the external jsonwebtoken library behind `generateToken`). `mac`
models the keyed signature function. `generateToken` passes
`expiresIn: "1h"`, so the expiry claim is issuance time plus 3600
seconds. -/
def signToken (mac : Nat → TokenPayload → Nat) (secret userId now : Nat) :
    Token :=
  let payload : TokenPayload :=
    { userId := userId, iat := now, exp := now + 3600 }
  { payload := payload, sig := mac secret payload }

/-- Verification outcome; expired and invalid are distinct errors. -/
inductive VerifyResult
  | ok (userId : Nat)
  | expired
  | invalid
deriving DecidableEq

/-- Modelled from the spec: `jwt.verify(token, secret)` of the external
token collaborator: a wrong signature is JsonWebTokenError (invalid); a
token whose expiry has passed (`exp ≤ now`) is TokenExpiredError
(expired); otherwise the claims are returned. -/
def verifyToken (mac : Nat → TokenPayload → Nat) (secret : Nat)
    (tok : Token) (now : Nat) : VerifyResult :=
  if tok.sig ≠ mac secret tok.payload then VerifyResult.invalid
  else if tok.payload.exp ≤ now then VerifyResult.expired
  else VerifyResult.ok tok.payload.userId

/-- The `authenticate` middleware's mapping of verification failures:
`none` lets the request proceed; both failures answer 401, with distinct
messages for TokenExpiredError and JsonWebTokenError. -/
def authOutcome : VerifyResult → Option (Nat × String)
  | VerifyResult.ok _ => none
  | VerifyResult.expired => some (401, "Token expired. Please login again.")
  | VerifyResult.invalid => some (401, "Invalid token.")

/-- Claim C9: a token issued at time T verifies successfully strictly
before T+3600s and is rejected as expired from T+3600s on — in particular
accepted at T+59min and rejected as expired at T+61min; a wrong signature
is rejected as invalid, a distinct outcome from expired, and the
middleware rejects both with 401 while distinguishing their messages. -/
theorem C9_token_expiry (mac : Nat → TokenPayload → Nat)
    (secret userId T : Nat) :
    (∀ t, t < T + 3600 →
        verifyToken mac secret (signToken mac secret userId T) t =
          VerifyResult.ok userId) ∧
      (∀ t, T + 3600 ≤ t →
        verifyToken mac secret (signToken mac secret userId T) t =
          VerifyResult.expired) ∧
      verifyToken mac secret (signToken mac secret userId T)
          (T + 59 * 60) = VerifyResult.ok userId ∧
      verifyToken mac secret (signToken mac secret userId T)
          (T + 61 * 60) = VerifyResult.expired ∧
      (∀ tok t, tok.sig ≠ mac secret tok.payload →
        verifyToken mac secret tok t = VerifyResult.invalid) ∧
      (VerifyResult.expired ≠ VerifyResult.invalid) ∧
      (∀ p : Nat × String, authOutcome VerifyResult.expired = some p →
        p.1 = 401) ∧
      (∀ p : Nat × String, authOutcome VerifyResult.invalid = some p →
        p.1 = 401) ∧
      authOutcome VerifyResult.expired ≠ none ∧
      authOutcome VerifyResult.invalid ≠ none ∧
      authOutcome VerifyResult.expired ≠ authOutcome VerifyResult.invalid := by
  have hok : ∀ t, t < T + 3600 →
      verifyToken mac secret (signToken mac secret userId T) t =
        VerifyResult.ok userId := by
    intro t ht
    rw [verifyToken, signToken]
    rw [if_neg (by simp)]
    rw [if_neg (by simp; omega)]
  have hexp : ∀ t, T + 3600 ≤ t →
      verifyToken mac secret (signToken mac secret userId T) t =
        VerifyResult.expired := by
    intro t ht
    rw [verifyToken, signToken]
    rw [if_neg (by simp)]
    rw [if_pos (by simp; omega)]
  refine ⟨hok, hexp, hok _ (by omega), hexp _ (by omega), ?_, ?_, ?_, ?_,
    ?_, ?_, ?_⟩
  · intro tok t hsig
    rw [verifyToken, if_pos hsig]
  · simp
  · intro p hp
    simp [authOutcome] at hp
    simp [← hp]
  · intro p hp
    simp [authOutcome] at hp
    simp [← hp]
  · simp [authOutcome]
  · simp [authOutcome]
  · simp [authOutcome]

/-- A signature model for the token witness. -/
def macSample (secret : Nat) (p : TokenPayload) : Nat :=
  secret + p.userId + p.iat + p.exp

theorem C9_token_expiry_witness :
    verifyToken macSample 5 (signToken macSample 5 1 0) (0 + 59 * 60) =
        VerifyResult.ok 1 ∧
      verifyToken macSample 5 (signToken macSample 5 1 0) (0 + 61 * 60) =
        VerifyResult.expired :=
  ⟨(C9_token_expiry macSample 5 1 0).1 (0 + 59 * 60) (by decide),
    (C9_token_expiry macSample 5 1 0).2.1 (0 + 61 * 60) (by decide)⟩

/-! ## Malformed object ids (error handler CastError mapping) -/

/-- A route-level response: status and message. -/
structure RouteResult where
  status : Nat
  message : String
deriving DecidableEq

/-- Modelled from the spec: mongoose ObjectId well-formedness — a
24-character hex string; any other `_id` value makes the cast throw a
CastError (mongoose is the external persistence collaborator). -/
def isValidObjectId (s : List Char) : Bool :=
  s.length == 24 &&
    s.all (fun c =>
      c.isDigit || (97 ≤ c.toNat && c.toNat ≤ 102) ||
        (65 ≤ c.toNat && c.toNat ≤ 70))

/-- GET /api/blogs/:id at the route level: a malformed id makes the `_id`
cast throw before the query runs; the controller's catch forwards the
CastError to the global error handler, which answers 400
"Invalid ID format". A well-formed id runs `getBlogById`. -/
def getBlogByIdRoute (db : List Blog) (rawId : List Char) :
    RouteResult × List Blog :=
  if isValidObjectId rawId then
    let r := getBlogById db rawId
    ({ status := r.1.status,
        message := if r.1.status = 404 then "Blog not found" else "" }, r.2)
  else ({ status := 400, message := "Invalid ID format" }, db)

/-- PATCH /api/blogs/:id at the route level; same CastError mapping. -/
def updateBlogRoute (db : List Blog) (caller : Nat) (rawId : List Char)
    (p : UpdatePayload) : RouteResult × List Blog :=
  if isValidObjectId rawId then
    let r := updateBlog db caller rawId p
    ({ status := r.1.status,
        message :=
          if r.1.status = 404 then "Blog not found"
          else if r.1.status = 403 then
            "You are not authorized to update this blog"
          else "Blog updated successfully" }, r.2)
  else ({ status := 400, message := "Invalid ID format" }, db)

/-- DELETE /api/blogs/:id at the route level; same CastError mapping. -/
def deleteBlogRoute (db : List Blog) (caller : Nat) (rawId : List Char) :
    RouteResult × List Blog :=
  if isValidObjectId rawId then
    let r := deleteBlog db caller rawId
    ({ status := r.1.status,
        message :=
          if r.1.status = 404 then "Blog not found"
          else if r.1.status = 403 then
            "You are not authorized to delete this blog"
          else "Blog deleted successfully" }, r.2)
  else ({ status := 400, message := "Invalid ID format" }, db)

/-- Claim C10: for every syntactically invalid object id, fetch, update
and delete do not answer 404: the cast failure maps to a 400
"Invalid ID format" response (and the database is untouched), so the
draft-behaves-like-nonexistent equivalence concerns well-formed ids
only. -/
theorem C10_invalid_id_not_notfound (db : List Blog) (caller : Nat)
    (rawId : List Char) (p : UpdatePayload)
    (hbad : isValidObjectId rawId = false) :
    getBlogByIdRoute db rawId =
        ({ status := 400, message := "Invalid ID format" }, db) ∧
      updateBlogRoute db caller rawId p =
        ({ status := 400, message := "Invalid ID format" }, db) ∧
      deleteBlogRoute db caller rawId =
        ({ status := 400, message := "Invalid ID format" }, db) ∧
      (getBlogByIdRoute db rawId).1.status ≠ 404 ∧
      (updateBlogRoute db caller rawId p).1.status ≠ 404 ∧
      (deleteBlogRoute db caller rawId).1.status ≠ 404 := by
  have h1 : getBlogByIdRoute db rawId =
      ({ status := 400, message := "Invalid ID format" }, db) := by
    rw [getBlogByIdRoute, if_neg (by simp [hbad])]
  have h2 : updateBlogRoute db caller rawId p =
      ({ status := 400, message := "Invalid ID format" }, db) := by
    rw [updateBlogRoute, if_neg (by simp [hbad])]
  have h3 : deleteBlogRoute db caller rawId =
      ({ status := 400, message := "Invalid ID format" }, db) := by
    rw [deleteBlogRoute, if_neg (by simp [hbad])]
  refine ⟨h1, h2, h3, ?_, ?_, ?_⟩ <;> simp [h1, h2, h3]

theorem C10_invalid_id_not_notfound_witness :
    getBlogByIdRoute [blogPub 0] ['z'] =
        ({ status := 400, message := "Invalid ID format" }, [blogPub 0]) ∧
      updateBlogRoute [blogPub 0] 1 ['z']
          { title := none, description := none, tags := none, body := none,
            state := none } =
        ({ status := 400, message := "Invalid ID format" }, [blogPub 0]) ∧
      deleteBlogRoute [blogPub 0] 1 ['z'] =
        ({ status := 400, message := "Invalid ID format" }, [blogPub 0]) ∧
      (getBlogByIdRoute [blogPub 0] ['z']).1.status ≠ 404 ∧
      (updateBlogRoute [blogPub 0] 1 ['z']
          { title := none, description := none, tags := none, body := none,
            state := none }).1.status ≠ 404 ∧
      (deleteBlogRoute [blogPub 0] 1 ['z']).1.status ≠ 404 :=
  C10_invalid_id_not_notfound [blogPub 0] 1 ['z']
    { title := none, description := none, tags := none, body := none,
      state := none } (by decide)

end BlogAPI
